import Mathlib

/-!
Shallow embedding of the DAOS agent generic-authentication subsystem:
the `auth` package helpers (token verification, flavor parsing, the
flavor-to-factory registry) and the agent-side `SecurityModule` dispatcher
(`security_rpc.go`).  Collaborators that live outside the provided sources
(the protobuf codec, the SHA-512 token signer, the drpc/daos constants and
the concrete factory implementations) are modelled from the spec; every
such definition says so in its doc comment.
-/

namespace DaosAuth

/-- Authentication flavor identifier.  Protobuf enums are integers; we use
`Nat` for the value space (the Go code compares flavors via `uint32`). -/
abbrev Flavor := Nat

/-- Modelled from the spec: the closed flavor enumeration of `auth.proto`
(not under the provided sources).  `AUTH_SYS` is the local-OS-identity
(Unix) flavor. -/
def Flavor_AUTH_NONE : Flavor := 0

/-- Modelled from the spec: the local-OS-identity (Unix) flavor value. -/
def Flavor_AUTH_SYS : Flavor := 1

/-- Modelled from the spec: the access-manager-issued flavor value. -/
def Flavor_AUTH_AM : Flavor := 2

/-- Modelled from the spec: `Flavor_value`, the name-to-value table of the
flavor enumeration used for configuration parsing. -/
def Flavor_value (name : String) : Option Flavor :=
  if name = "AUTH_NONE" then some Flavor_AUTH_NONE
  else if name = "AUTH_SYS" then some Flavor_AUTH_SYS
  else if name = "AUTH_AM" then some Flavor_AUTH_AM
  else none

/-- Modelled from the spec: `Flavor_name`, the value-to-name direction of
the enumeration table. -/
def Flavor_name (v : Flavor) : Option String :=
  if v = Flavor_AUTH_NONE then some "AUTH_NONE"
  else if v = Flavor_AUTH_SYS then some "AUTH_SYS"
  else if v = Flavor_AUTH_AM then some "AUTH_AM"
  else none

/-- The protobuf `Token` message: a flavor plus opaque payload bytes
(bytes modelled as `List Nat`). -/
structure Token where
  flavor : Flavor
  data : List Nat
  deriving DecidableEq, Repr

/-- Modelled from the spec: deterministic protobuf serialization of a
`Token` (`proto.Marshal`, outside the provided sources).  Serializing an
in-memory message is total here; the Go error branch is unreachable in the
model.  The encoding is injective, as a deterministic serializer is. -/
def marshalToken (t : Token) : List Nat :=
  t.flavor :: t.data

/-- Keys are opaque; both public and private keys are modelled as `Nat`. -/
abbrev Key := Nat

/-- The token signer interface (`security.TokenSigner`): a content hash for
unsigned mode and an asymmetric sign/verify pair for signed mode. -/
structure TokenSigner where
  hash : List Nat → List Nat
  sign : Key → List Nat → List Nat
  verify : Key → List Nat → List Nat → Except String Unit

/-- Modelled from the spec: `security.DefaultTokenSigner()` (outside the
provided sources).  The content hash is a fixed digest of the serialized
bytes, modelled as an injective tagging so that the spec's tamper-evidence
(distinct byte strings have distinct digests) is visible; sign/verify are a
matching toy asymmetric pair. -/
def DefaultTokenSigner : TokenSigner where
  hash := fun b => 0 :: b
  sign := fun k b => (k + 1) :: b
  verify := fun k b s =>
    if s = (k + 1) :: b then Except.ok () else Except.error "signature mismatch"

/-- `VerifierFromToken` (auth package): hash of the serialized token, or a
signature over it when a signing key is supplied. -/
def VerifierFromToken (signer : TokenSigner) (key : Option Key) (token : Token) :
    Except String (List Nat) :=
  let tokenBytes := marshalToken token
  match key with
  | none => Except.ok (signer.hash tokenBytes)
  | some k => Except.ok (signer.sign k tokenBytes)

/-- `VerifyToken` (auth package), generic in the signer so that theorems can
quantify over every possible hash/verify behaviour: marshal the token,
reject unsupported flavors, then either compare the recomputed hash
(unsigned mode) or verify the signature (signed mode). -/
def VerifyTokenWith (signer : TokenSigner) (key : Option Key) (token : Token)
    (sig : List Nat) (validAuthFlavors : List Nat) : Except String Unit :=
  let tokenBytes := marshalToken token
  if ¬ validAuthFlavors.contains token.flavor then
    Except.error "token has authentication flavor not supported by server."
  else
    match key with
    | none =>
        let digest := signer.hash tokenBytes
        if digest = sig then Except.ok ()
        else Except.error "unsigned hash failed to verify."
    | some k =>
        match signer.verify k tokenBytes sig with
        | Except.ok () => Except.ok ()
        | Except.error e => Except.error ("token verification Failed: " ++ e)

/-- `VerifyToken` as the source uses it, with the default signer. -/
def VerifyToken (key : Option Key) (token : Token) (sig : List Nat)
    (validAuthFlavors : List Nat) : Except String Unit :=
  VerifyTokenWith DefaultTokenSigner key token sig validAuthFlavors

/-- The protobuf `Sys` message (the AUTH_SYS identity payload); modelled
with the identity fields the spec calls "the embedded identity payload". -/
structure Sys where
  uid : Nat
  gid : Nat
  deriving DecidableEq, Repr

/-- Modelled from the spec: protobuf deserialization of a `Sys` message
(`proto.Unmarshal`, outside the provided sources).  A two-field message
decodes from exactly the two-element encoding; anything else fails. -/
def unmarshalSys (b : List Nat) : Option Sys :=
  match b with
  | [u, g] => some { uid := u, gid := g }
  | _ => none

/-- `AuthSysFromAuthToken` (auth package): only an `AUTH_SYS` token converts
to a `Sys`; the embedded payload must deserialize. -/
def AuthSysFromAuthToken (authToken : Token) : Except String Sys :=
  if authToken.flavor ≠ Flavor_AUTH_SYS then
    Except.error "Attempting to convert an invalid AuthSys Token"
  else
    match unmarshalSys authToken.data with
    | none => Except.error "unmarshaling AUTH_SYS"
    | some sysToken => Except.ok sysToken

/-- `ParseValidAuthFlavors` (auth package): map configuration strings
through the enumeration's name table, failing on the first unknown name. -/
def ParseValidAuthFlavors (authStrings : List String) : Except String (List Nat) :=
  match authStrings with
  | [] => Except.ok []
  | s :: rest =>
      match Flavor_value ("AUTH_" ++ s) with
      | none => Except.error ("auth string " ++ s ++ " is not recognized")
      | some flavor =>
          match ParseValidAuthFlavors rest with
          | Except.error e => Except.error e
          | Except.ok tail => Except.ok (flavor :: tail)

/-- A credential request factory: the registry only consumes its reported
flavor; a name tag distinguishes the concrete implementations. -/
structure CredentialRequestFactory where
  name : String
  GetAuthFlavor : Flavor
  deriving DecidableEq, Repr

/-- The flavor-to-factory registry, a Go `map` modelled as an association
list (first binding wins on lookup; `generateAuthMap` never inserts a
duplicate key). -/
abbrev AuthMap := List (Flavor × CredentialRequestFactory)

/-- `generateAuthMap` (auth package): fold the factory list into the map,
panicking (modelled as `Except.error`) when a flavor is already bound. -/
def generateAuthMapFrom (reqs : List CredentialRequestFactory) (am : AuthMap) :
    Except String AuthMap :=
  match reqs with
  | [] => Except.ok am
  | req :: rest =>
      if (am.lookup req.GetAuthFlavor).isSome then
        Except.error "multiple authentication methods with the same flavor were found - confirm that all implementations of GetAuthName are unique"
      else
        generateAuthMapFrom rest (am ++ [(req.GetAuthFlavor, req)])

/-- `generateAuthMap` applied to a factory list, starting from the empty
map as the source does. -/
def generateAuthMap (reqs : List CredentialRequestFactory) : Except String AuthMap :=
  generateAuthMapFrom reqs []

/-- Modelled from the spec: the Unix (local-OS-identity) factory; its
`GetAuthFlavor` returns the local-OS-identity flavor. -/
def CredentialRequestUnix : CredentialRequestFactory :=
  { name := "unix", GetAuthFlavor := Flavor_AUTH_SYS }

/-- Modelled from the spec: the access-manager factory. -/
def CredentialRequestAM : CredentialRequestFactory :=
  { name := "am", GetAuthFlavor := Flavor_AUTH_AM }

/-- `CredentialRequests` (auth package): the static factory list. -/
def CredentialRequests : List CredentialRequestFactory :=
  [CredentialRequestUnix, CredentialRequestAM]

/-- `FlavorToFactory` (auth package): the registry built at startup. -/
def FlavorToFactory : AuthMap :=
  match generateAuthMap CredentialRequests with
  | Except.ok am => am
  | Except.error _ => []

end DaosAuth

namespace DaosAgent

open DaosAuth

/-- Errors flowing out of the agent security module.  `statusErr` carries a
`daos.Status` value (so `errors.Is(err, daos.MiscError)` is expressible);
`msg` is a plain wrapped error string. -/
inductive Err where
  | statusErr (s : Int) : Err
  | msg (s : String) : Err
  deriving DecidableEq, Repr

/-- Modelled from the spec: the `daos.BadCert` status value (the `daos`
package is outside the provided sources; statuses are distinct codes). -/
def daosBadCert : Int := -1020

/-- Modelled from the spec: the `daos.MiscError` status value. -/
def daosMiscError : Int := -1025

/-- Modelled from the spec: the drpc method id of `RequestCredentials`. -/
def MethodRequestCredentialsID : Int := 101

/-- Modelled from the spec: the drpc method id of `RequestValidFlavors`. -/
def MethodRequestValidFlavorsID : Int := 102

/-- A signed credential, opaque to the dispatcher. -/
structure Credential where
  data : List Nat
  deriving DecidableEq, Repr

/-- The `AuthArgs` request message: a flavor plus opaque inner payload. -/
structure AuthArgs where
  Flavor : DaosAuth.Flavor
  Data : List Nat
  deriving DecidableEq, Repr

/-- Modelled from the spec: protobuf deserialization of `AuthArgs`
(`proto.Unmarshal`, outside the provided sources).  A serialized
`\x7bflavor, opaque inner bytes\x7d` message decodes as a leading flavor
value that must belong to the enumeration, followed by the inner bytes;
anything else fails to unmarshal. -/
def unmarshalAuthArgs (b : List Nat) : Option AuthArgs :=
  match b with
  | [] => none
  | f :: rest =>
      if (Flavor_name f).isSome then some { Flavor := f, Data := rest }
      else none

/-- `getAuthArgs` (security_rpc.go): an empty request body yields a fresh
`AuthArgs` whose flavor is the Unix factory's flavor; a non-empty body is
unmarshaled, failure becoming `drpc.UnmarshalingPayloadFailure()`. -/
def getAuthArgs (reqb : List Nat) : Except Err AuthArgs :=
  if reqb.length = 0 then
    Except.ok { Flavor := CredentialRequestUnix.GetAuthFlavor, Data := [] }
  else
    match unmarshalAuthArgs reqb with
    | none => Except.error (Err.msg "failed to unmarshal request payload")
    | some args => Except.ok args

/-- A cached credential entry: cache key, absolute expiration time and the
wrapped credential.  Time is modelled as `Nat`; the zero time is Go's zero
`time.Time` (`IsZero`). -/
structure cachedCredential where
  key : String
  expiredAt : Nat
  cred : Option Credential
  deriving DecidableEq, Repr

/-- `cachedCredential.IsExpired` (security_rpc.go) at clock reading `now`:
a nil entry, nil credential or zero expiration is expired; otherwise the
entry is expired exactly when `now` is strictly after `expiredAt`
(`time.Now().After`). -/
def IsExpired (cred : Option cachedCredential) (now : Nat) : Bool :=
  match cred with
  | none => true
  | some c =>
      if c.cred.isNone || c.expiredAt == 0 then true
      else decide (c.expiredAt < now)

/-- `newCachedCredential` (security_rpc.go) at creation time `now`: a nil
credential is rejected; otherwise the entry expires at `now + lifetime`. -/
def newCachedCredential (key : String) (cred : Option Credential)
    (lifetime : Nat) (now : Nat) : Except Err cachedCredential :=
  match cred with
  | none => Except.error (Err.msg "credential is nil")
  | some c => Except.ok { key := key, expiredAt := now + lifetime, cred := some c }

/-- The `GetCredResp` response message: a credential or a status code. -/
structure GetCredResp where
  Status : Int
  Cred : Option Credential
  deriving DecidableEq, Repr

/-- Modelled from the spec: `drpc.Marshal` of a `GetCredResp` (outside the
provided sources); a deterministic, injective serialization. -/
def marshalGetCredResp (r : GetCredResp) : List Nat :=
  (Int.natAbs r.Status) :: (if r.Status < 0 then 1 else 0) ::
    (match r.Cred with
     | none => []
     | some c => 1 :: c.data)

/-- Modelled from the spec: `drpc.Marshal` of a `GetValidAuthResp`, the
serialized list of valid flavor identifiers. -/
def marshalGetValidAuthResp (flavors : List Flavor) : List Nat :=
  flavors

/-- The environment a `SecurityModule` call runs against: the outcomes of
its collaborators (attach-info fetch, transport private key, request
initialization, credential signing). -/
structure SecEnv where
  attachInfoValidAuthFlavors : Except Err (List Nat)
  privateKey : Except Err Key
  initResult : Except Err Unit
  signResult : Except Err Credential

/-- `SecurityModule.retrieveAuthFromServer` (security_rpc.go): fetch attach
info, convert the reported flavor values, and fail when the list is empty. -/
def retrieveAuthFromServer (env : SecEnv) : Except Err (List Flavor) :=
  match env.attachInfoValidAuthFlavors with
  | Except.error _ => Except.error (Err.msg "failed to get attach info")
  | Except.ok vals =>
      let flavors : List Flavor := vals.map (fun v => v)
      if flavors.length = 0 then
        Except.error (Err.msg "failed to receive valid authentication flavors from server.")
      else Except.ok flavors

/-- `SecurityModule.credRespWithStatus` (security_rpc.go): a successfully
marshaled credential response carrying only a status code. -/
def credRespWithStatus (status : Int) : Except Err (List Nat) :=
  Except.ok (marshalGetCredResp { Status := status, Cred := none })

/-- `SecurityModule.getCredential` (security_rpc.go), with the module's
`validAuthFlavors` field passed explicitly: populate the valid-flavor set
if empty, reject disallowed flavors, fetch the signing key (failure ⇒
BadCert status response), run the request lifecycle, and marshal the
resulting credential or status. -/
def getCredential (env : SecEnv) (validAuthFlavors : List Flavor)
    (args : AuthArgs) : Except Err (List Nat) :=
  let populated : Except Err (List Flavor) :=
    if validAuthFlavors.length = 0 then retrieveAuthFromServer env
    else Except.ok validAuthFlavors
  match populated with
  | Except.error e => Except.error e
  | Except.ok flavors =>
      if ¬ flavors.contains args.Flavor then
        Except.error (Err.msg "invalid authentication method: the method requested is not allowed by the server configuration.")
      else
        match env.privateKey with
        | Except.error _ => credRespWithStatus daosBadCert
        | Except.ok _ =>
            match env.initResult with
            | Except.error err =>
                if err = Err.statusErr daosMiscError then
                  credRespWithStatus daosMiscError
                else Except.error err
            | Except.ok () =>
                match env.signResult with
                | Except.error _ => credRespWithStatus daosMiscError
                | Except.ok cred =>
                    Except.ok (marshalGetCredResp { Status := 0, Cred := some cred })

/-- `SecurityModule.getValidAuthFlavors` (security_rpc.go): populate the
valid-flavor set if empty and marshal it. -/
def getValidAuthFlavors (env : SecEnv) (validAuthFlavors : List Flavor) :
    Except Err (List Nat) :=
  let populated : Except Err (List Flavor) :=
    if validAuthFlavors.length = 0 then retrieveAuthFromServer env
    else Except.ok validAuthFlavors
  match populated with
  | Except.error e => Except.error e
  | Except.ok flavors => Except.ok (marshalGetValidAuthResp flavors)

/-- `SecurityModule.HandleCall` (security_rpc.go): parse the request body,
resolve the factory for the requested flavor, then dispatch on the method
id (`RequestCredentials`, `RequestValidFlavors`, otherwise unknown). -/
def HandleCall (env : SecEnv) (validAuthFlavors : List Flavor)
    (method : Int) (reqb : List Nat) : Except Err (List Nat) :=
  match getAuthArgs reqb with
  | Except.error e => Except.error e
  | Except.ok args =>
      match FlavorToFactory.lookup args.Flavor with
      | none => Except.error (Err.msg "failed to find flavor in flavor to factory map - check that authentcation specified by the server is supported in the agent.")
      | some _ =>
          if method = MethodRequestCredentialsID then
            getCredential env validAuthFlavors args
          else if method = MethodRequestValidFlavorsID then
            getValidAuthFlavors env validAuthFlavors
          else Except.error (Err.msg "unknown method")

/-- `SecurityModule.GetMethod` (security_rpc.go): only the
request-credentials id resolves to a method; every other id is an invalid
method ID error. -/
def GetMethod (id : Int) : Except Err Int :=
  if id = MethodRequestCredentialsID then Except.ok MethodRequestCredentialsID
  else Except.error (Err.msg "invalid method ID for module agent_security")

end DaosAgent

section ClaimTheorems

open DaosAuth DaosAgent

/-- Claim C1, counterexample: a credential cached at time 0 with lifetime 5
(so `expiredAt = 5`) is still reported fresh by `IsExpired` at the lookup
time 5, which is "at" the expiration time; the claim says such a lookup
must see the entry as expired. -/
theorem claim1_boundary_counterexample :
    newCachedCredential "alice" (some { data := [7] }) 5 0 =
        Except.ok { key := "alice", expiredAt := 5, cred := some { data := [7] } } ∧
      IsExpired (some { key := "alice", expiredAt := 5, cred := some { data := [7] } }) 5 = false := by
  exact ⟨rfl, rfl⟩

/-- Claim C1 as amended: an entry created by `newCachedCredential` with
lifetime `L` at time `t0` (its expiration time `t0 + L` being a nonzero
instant) is served as fresh for every lookup at or strictly before
`t0 + L`, and is treated as expired exactly for the lookups strictly after
`t0 + L` (the code uses a strict `time.Now().After` comparison). -/
theorem claim1_expiry_amended (key : String) (cred : Credential) (L t0 : Nat)
    (e : cachedCredential)
    (h : newCachedCredential key (some cred) L t0 = Except.ok e)
    (hz : 0 < t0 + L) :
    (∀ t, t ≤ t0 + L → IsExpired (some e) t = false) ∧
    (∀ t, t0 + L < t → IsExpired (some e) t = true) := by
  simp only [newCachedCredential, Except.ok.injEq] at h
  subst h
  refine ⟨fun t ht => ?_, fun t ht => ?_⟩
  · simp [IsExpired, Nat.pos_iff_ne_zero.mp hz, Nat.not_lt.mpr ht]
  · simp [IsExpired, Nat.pos_iff_ne_zero.mp hz, ht]

/-- Claim C1 witness: instantiation of the amended theorem at the concrete
entry of the counterexample (fresh at time 5, expired at time 6). -/
theorem claim1_expiry_amended_witness :
    IsExpired (some { key := "alice", expiredAt := 5, cred := some { data := [7] } }) 5 = false ∧
    IsExpired (some { key := "alice", expiredAt := 5, cred := some { data := [7] } }) 6 = true := by
  have h := claim1_expiry_amended "alice" { data := [7] } 5 0
    { key := "alice", expiredAt := 5, cred := some { data := [7] } } rfl (by decide)
  exact ⟨h.1 5 (by decide), h.2 6 (by decide)⟩

/-- Claim C2: for every signer behaviour, key (present or not), token,
verifier bytes and valid-flavor list, a token whose flavor is not in the
valid list is rejected with the unsupported-flavor error; the result does
not depend on the signer's hash or verify functions at all, so no
cryptographic work influences the rejection. -/
theorem claim2_flavor_rejected_before_crypto (signer : TokenSigner)
    (key : Option Key) (token : Token) (sig : List Nat)
    (validAuthFlavors : List Nat)
    (h : token.flavor ∉ validAuthFlavors) :
    VerifyTokenWith signer key token sig validAuthFlavors =
      Except.error "token has authentication flavor not supported by server." := by
  simp [VerifyTokenWith, h]

/-- Claim C2 witness: a signed-mode call whose verifier is exactly the
default signer's signature over the serialized token is still rejected
when the flavor is absent from the valid list. -/
theorem claim2_flavor_rejected_before_crypto_witness :
    (Token.mk Flavor_AUTH_AM [9]).flavor ∉ [Flavor_AUTH_SYS] ∧
    VerifyTokenWith DefaultTokenSigner (some 5) (Token.mk Flavor_AUTH_AM [9])
        (DefaultTokenSigner.sign 5 (marshalToken (Token.mk Flavor_AUTH_AM [9])))
        [Flavor_AUTH_SYS] =
      Except.error "token has authentication flavor not supported by server." := by
  refine ⟨by decide, ?_⟩
  exact claim2_flavor_rejected_before_crypto DefaultTokenSigner (some 5)
    (Token.mk Flavor_AUTH_AM [9]) _ [Flavor_AUTH_SYS] (by decide)

/-- Claim C3: in unsigned mode with a valid flavor, `VerifyToken` succeeds
exactly when the verifier equals the content hash of the serialized token;
the `VerifierFromToken` round trip succeeds; any other verifier fails with
the unsigned-hash verification error; and a token serializing to different
bytes never verifies against the original token's hash. -/
theorem claim3_unsigned_hash_verification (token : Token) (v : List Nat)
    (validAuthFlavors : List Nat)
    (hf : token.flavor ∈ validAuthFlavors) :
    (VerifyToken none token v validAuthFlavors = Except.ok () ↔
      v = DefaultTokenSigner.hash (marshalToken token)) ∧
    (∀ ver, VerifierFromToken DefaultTokenSigner none token = Except.ok ver →
      VerifyToken none token ver [token.flavor] = Except.ok ()) ∧
    (∀ v2, v2 ≠ DefaultTokenSigner.hash (marshalToken token) →
      VerifyToken none token v2 validAuthFlavors =
        Except.error "unsigned hash failed to verify.") ∧
    (∀ token2, marshalToken token2 ≠ marshalToken token →
      VerifyToken none token2 (DefaultTokenSigner.hash (marshalToken token))
        validAuthFlavors ≠ Except.ok ()) := by
  refine ⟨?_, ?_, ?_, ?_⟩
  · by_cases hv : v = DefaultTokenSigner.hash (marshalToken token)
    · simp [VerifyToken, VerifyTokenWith, hf, hv]
    · simp only [VerifyToken, VerifyTokenWith]
      simp [hf, hv, Ne.symm hv]
  · intro ver hver
    have hv : DefaultTokenSigner.hash (marshalToken token) = ver := by
      simpa [VerifierFromToken] using hver
    subst hv
    simp [VerifyToken, VerifyTokenWith]
  · intro v2 hne
    simp [VerifyToken, VerifyTokenWith, hf, hne.symm]
  · intro token2 hne hok
    by_cases hmem : token2.flavor ∈ validAuthFlavors
    · have heq : (0 : ℕ) :: marshalToken token2 = 0 :: marshalToken token := by
        by_contra hne2
        simp [VerifyToken, VerifyTokenWith, DefaultTokenSigner, hmem, hne2] at hok
      exact hne (by simpa using heq)
    · simp [VerifyToken, VerifyTokenWith, hmem] at hok

/-- Claim C3 witness: concrete unsigned round trip for an `AUTH_SYS` token,
plus a failing altered verifier, via the main theorem. -/
theorem claim3_unsigned_hash_verification_witness :
    VerifyToken none (Token.mk Flavor_AUTH_SYS [3, 4])
        (DefaultTokenSigner.hash (marshalToken (Token.mk Flavor_AUTH_SYS [3, 4])))
        [Flavor_AUTH_SYS] = Except.ok () ∧
    VerifyToken none (Token.mk Flavor_AUTH_SYS [3, 4]) [9, 9]
        [Flavor_AUTH_SYS] = Except.error "unsigned hash failed to verify." := by
  have h := claim3_unsigned_hash_verification (Token.mk Flavor_AUTH_SYS [3, 4])
    [9, 9] [Flavor_AUTH_SYS] (by decide)
  exact ⟨h.2.1 _ rfl, h.2.2.1 [9, 9] (by decide)⟩

/-- Claim C5: the empty request payload is not an error: it yields the Unix
(local-OS-identity) default flavor with an empty inner payload, and
`HandleCall` then dispatches `getCredential` with exactly that default; a
non-empty payload is taken from unmarshaling, and an unmarshalable payload
yields the unmarshaling-failure error. -/
theorem claim5_empty_payload_default :
    (getAuthArgs [] =
      Except.ok { Flavor := CredentialRequestUnix.GetAuthFlavor, Data := [] }) ∧
    (∀ env validAuthFlavors,
      HandleCall env validAuthFlavors MethodRequestCredentialsID [] =
        getCredential env validAuthFlavors
          { Flavor := CredentialRequestUnix.GetAuthFlavor, Data := [] }) ∧
    (∀ b args, b ≠ [] → unmarshalAuthArgs b = some args →
      getAuthArgs b = Except.ok args) ∧
    (∀ b, b ≠ [] → unmarshalAuthArgs b = none →
      getAuthArgs b = Except.error (Err.msg "failed to unmarshal request payload")) := by
  refine ⟨rfl, fun env validAuthFlavors => rfl, ?_, ?_⟩
  · intro b args hb hsome
    simp [getAuthArgs, List.length_eq_zero, hb, hsome]
  · intro b hb hnone
    simp [getAuthArgs, List.length_eq_zero, hb, hnone]

/-- Claim C5 witness: concrete payloads — a decodable non-empty payload, an
undecodable one — via the main theorem, plus the empty-payload default. -/
theorem claim5_empty_payload_default_witness :
    getAuthArgs [] = Except.ok { Flavor := Flavor_AUTH_SYS, Data := [] } ∧
    getAuthArgs [1, 5] = Except.ok { Flavor := 1, Data := [5] } ∧
    getAuthArgs [99] = Except.error (Err.msg "failed to unmarshal request payload") := by
  have h := claim5_empty_payload_default
  exact ⟨h.1, h.2.2.1 [1, 5] { Flavor := 1, Data := [5] } (by decide) rfl,
    h.2.2.2 [99] (by decide) rfl⟩

/-- Claim C8: `ParseValidAuthFlavors` fails with the unrecognized-name error
of the first name the enumeration table does not know (returning no list at
all), and when every name is recognized it returns the corresponding flavor
values in input order, one per name. -/
theorem claim8_parse_valid_flavors (names : List String) :
    (∀ bad, names.find? (fun s => (Flavor_value ("AUTH_" ++ s)).isNone) = some bad →
      ParseValidAuthFlavors names =
        Except.error ("auth string " ++ bad ++ " is not recognized")) ∧
    ((∀ s ∈ names, (Flavor_value ("AUTH_" ++ s)).isSome) →
      ParseValidAuthFlavors names =
        Except.ok (names.map (fun s => (Flavor_value ("AUTH_" ++ s)).getD 0))) := by
  induction names with
  | nil => exact ⟨fun bad h => by simp at h, fun _ => rfl⟩
  | cons s rest ih =>
    constructor
    · intro bad h
      cases hv : Flavor_value ("AUTH_" ++ s) with
      | none =>
        simp only [List.find?_cons, hv, Option.isNone_none] at h
        obtain rfl : s = bad := by simpa using h
        simp [ParseValidAuthFlavors, hv]
      | some fl =>
        simp only [List.find?_cons, hv, Option.isNone_some] at h
        have hrest := ih.1 bad h
        simp [ParseValidAuthFlavors, hv, hrest]
    · intro hall
      have hs : (Flavor_value ("AUTH_" ++ s)).isSome := hall s (by simp)
      cases hv : Flavor_value ("AUTH_" ++ s) with
      | none => rw [hv] at hs; simp at hs
      | some fl =>
        have hrest := ih.2 (fun x hx => hall x (by simp [hx]))
        simp [ParseValidAuthFlavors, hv, hrest]

/-- Claim C8 witness: the names SYS and AM parse, in order, to their flavor
values; a list with an unknown second name aborts with that name's error. -/
theorem claim8_parse_valid_flavors_witness :
    ParseValidAuthFlavors ["SYS", "AM"] = Except.ok [1, 2] ∧
    ParseValidAuthFlavors ["SYS", "BOGUS"] =
      Except.error "auth string BOGUS is not recognized" := by
  have h1 := (claim8_parse_valid_flavors ["SYS", "AM"]).2 (by decide)
  have h2 := (claim8_parse_valid_flavors ["SYS", "BOGUS"]).1 "BOGUS" (by decide)
  exact ⟨h1.trans (congrArg Except.ok (by decide)),
    h2.trans (congrArg Except.error (by decide))⟩

/-- Claim C9: `AuthSysFromAuthToken` succeeds only on `AUTH_SYS` tokens: any
other flavor yields the type-mismatch error and no identity; an `AUTH_SYS`
token with an undeserializable payload yields the unmarshaling error; and a
deserializable `AUTH_SYS` payload is returned as the decoded identity. -/
theorem claim9_authsys_from_token (t : Token) :
    (t.flavor ≠ Flavor_AUTH_SYS →
      AuthSysFromAuthToken t =
        Except.error "Attempting to convert an invalid AuthSys Token") ∧
    (t.flavor = Flavor_AUTH_SYS → unmarshalSys t.data = none →
      AuthSysFromAuthToken t = Except.error "unmarshaling AUTH_SYS") ∧
    (∀ s, t.flavor = Flavor_AUTH_SYS → unmarshalSys t.data = some s →
      AuthSysFromAuthToken t = Except.ok s) ∧
    (∀ s, AuthSysFromAuthToken t = Except.ok s →
      t.flavor = Flavor_AUTH_SYS ∧ unmarshalSys t.data = some s) := by
  refine ⟨fun h => by simp [AuthSysFromAuthToken, h],
    fun h1 h2 => by simp [AuthSysFromAuthToken, h1, h2],
    fun s h1 h2 => by simp [AuthSysFromAuthToken, h1, h2], ?_⟩
  intro s h
  by_cases h1 : t.flavor = Flavor_AUTH_SYS
  · cases h2 : unmarshalSys t.data with
    | none => simp [AuthSysFromAuthToken, h1, h2] at h
    | some s2 =>
      have hss : s2 = s := by simpa [AuthSysFromAuthToken, h1, h2] using h
      exact ⟨h1, congrArg some hss⟩
  · simp [AuthSysFromAuthToken, h1] at h

/-- Claim C9 witness: a decodable `AUTH_SYS` token converts; a non-SYS
flavor is a type mismatch; a malformed `AUTH_SYS` payload is an
unmarshaling error — all via the main theorem. -/
theorem claim9_authsys_from_token_witness :
    AuthSysFromAuthToken (Token.mk 1 [10, 20]) = Except.ok { uid := 10, gid := 20 } ∧
    AuthSysFromAuthToken (Token.mk 2 [10, 20]) =
      Except.error "Attempting to convert an invalid AuthSys Token" ∧
    AuthSysFromAuthToken (Token.mk 1 [1, 2, 3]) =
      Except.error "unmarshaling AUTH_SYS" := by
  exact ⟨(claim9_authsys_from_token (Token.mk 1 [10, 20])).2.2.1 _ rfl rfl,
    (claim9_authsys_from_token (Token.mk 2 [10, 20])).1 (by decide),
    (claim9_authsys_from_token (Token.mk 1 [1, 2, 3])).2.1 rfl rfl⟩

/-- Claim C10: `GetMethod` resolves exactly the request-credentials id and
returns the invalid-method-ID error for everything else — including the
request-valid-flavors id — even though `HandleCall` does dispatch the
request-valid-flavors method whenever the request body parses and the
flavor resolves. -/
theorem claim10_getmethod_only_credentials :
    (∀ id : Int, (GetMethod id).isOk = true ↔ id = MethodRequestCredentialsID) ∧
    GetMethod MethodRequestValidFlavorsID =
      Except.error (Err.msg "invalid method ID for module agent_security") ∧
    (∀ env validAuthFlavors reqb args, getAuthArgs reqb = Except.ok args →
      (FlavorToFactory.lookup args.Flavor).isSome = true →
      HandleCall env validAuthFlavors MethodRequestValidFlavorsID reqb =
        getValidAuthFlavors env validAuthFlavors) := by
  refine ⟨?_, rfl, ?_⟩
  · intro id
    by_cases h : id = MethodRequestCredentialsID <;>
      simp [GetMethod, h, Except.isOk, Except.toBool]
  · intro env validAuthFlavors reqb args hargs hlook
    simp only [HandleCall, hargs]
    cases hl : FlavorToFactory.lookup args.Flavor with
    | none => simp [hl] at hlook
    | some f =>
      simp [hl, MethodRequestCredentialsID, MethodRequestValidFlavorsID]

/-- Claim C10 witness: `GetMethod` accepts the request-credentials id, and a
concrete `HandleCall` with the valid-flavors method id reaches
`getValidAuthFlavors` — via the main theorem. -/
theorem claim10_getmethod_only_credentials_witness :
    (GetMethod MethodRequestCredentialsID).isOk = true ∧
    HandleCall
        { attachInfoValidAuthFlavors := Except.ok [1], privateKey := Except.ok 0,
          initResult := Except.ok (), signResult := Except.ok { data := [3] } }
        [1] MethodRequestValidFlavorsID [] =
      getValidAuthFlavors
        { attachInfoValidAuthFlavors := Except.ok [1], privateKey := Except.ok 0,
          initResult := Except.ok (), signResult := Except.ok { data := [3] } }
        [1] := by
  have h := claim10_getmethod_only_credentials
  exact ⟨(h.1 MethodRequestCredentialsID).mpr rfl,
    h.2.2 _ [1] []
      { Flavor := CredentialRequestUnix.GetAuthFlavor, Data := [] } rfl (by decide)⟩

/-- Helper: `generateAuthMapFrom` succeeds exactly when the incoming
factories' flavors are pairwise distinct and none of them is already bound
in the accumulator. -/
theorem generateAuthMapFrom_isOk (reqs : List DaosAuth.CredentialRequestFactory) :
    ∀ am : DaosAuth.AuthMap,
      ((DaosAuth.generateAuthMapFrom reqs am).isOk = true ↔
        ((reqs.map (fun r => r.GetAuthFlavor)).Nodup ∧
          ∀ req ∈ reqs, (am.lookup req.GetAuthFlavor).isNone)) := by
  induction reqs with
  | nil =>
    intro am
    simp [DaosAuth.generateAuthMapFrom, Except.isOk, Except.toBool]
  | cons req rest ih =>
    intro am
    by_cases hmem : (am.lookup req.GetAuthFlavor).isSome = true
    · simp only [DaosAuth.generateAuthMapFrom, hmem, if_true, Except.isOk,
        Except.toBool, Bool.false_eq_true, false_iff, not_and]
      intro _ hall
      have h1 : am.lookup req.GetAuthFlavor = none :=
        Option.isNone_iff_eq_none.mp (hall req (by simp))
      rw [h1] at hmem
      simp at hmem
    · have hnone : am.lookup req.GetAuthFlavor = none :=
        Option.not_isSome_iff_eq_none.mp hmem
      simp only [DaosAuth.generateAuthMapFrom, hmem, if_false, Bool.false_eq_true]
      rw [ih (am ++ [(req.GetAuthFlavor, req)])]
      constructor
      · rintro ⟨hnd, hnot⟩
        refine ⟨?_, ?_⟩
        · simp only [List.map_cons, List.nodup_cons]
          refine ⟨?_, hnd⟩
          intro hin
          rcases List.mem_map.mp hin with ⟨r, hr, hfl⟩
          have h2 := hnot r hr
          rw [List.lookup_append] at h2
          simp [hfl, hnone] at h2
        · intro r hr
          rcases List.mem_cons.mp hr with heq | htail
          · subst heq
            simp [hnone]
          · have h2 := hnot r htail
            rw [List.lookup_append] at h2
            cases hx : am.lookup r.GetAuthFlavor with
            | none => simp
            | some v => rw [hx] at h2; simp at h2
      · rintro ⟨hnd, hnot⟩
        simp only [List.map_cons, List.nodup_cons] at hnd
        refine ⟨hnd.2, ?_⟩
        intro r hr
        have hk : am.lookup r.GetAuthFlavor = none :=
          Option.isNone_iff_eq_none.mp (hnot r (by simp [hr]))
        have hne : ¬ r.GetAuthFlavor = req.GetAuthFlavor := by
          intro he
          exact hnd.1 (List.mem_map.mpr ⟨r, hr, he⟩)
        have hbeq : (r.GetAuthFlavor == req.GetAuthFlavor) = false := by
          simpa using hne
        rw [List.lookup_append, hk]
        simp [List.lookup_cons, hbeq]

/-- Helper: on success, `generateAuthMapFrom` preserves existing bindings
and binds every processed factory's flavor to that factory. -/
theorem generateAuthMapFrom_lookup (reqs : List DaosAuth.CredentialRequestFactory) :
    ∀ am res, DaosAuth.generateAuthMapFrom reqs am = Except.ok res →
      (∀ a, (am.lookup a).isSome = true → res.lookup a = am.lookup a) ∧
      (∀ req ∈ reqs, res.lookup req.GetAuthFlavor = some req) := by
  induction reqs with
  | nil =>
    intro am res h
    simp only [DaosAuth.generateAuthMapFrom, Except.ok.injEq] at h
    subst h
    exact ⟨fun a _ => rfl, fun req hr => absurd hr (List.not_mem_nil req)⟩
  | cons req rest ih =>
    intro am res h
    by_cases hmem : (am.lookup req.GetAuthFlavor).isSome = true
    · simp [DaosAuth.generateAuthMapFrom, hmem] at h
    · have hnone : am.lookup req.GetAuthFlavor = none :=
        Option.not_isSome_iff_eq_none.mp hmem
      simp only [DaosAuth.generateAuthMapFrom, hmem, if_false, Bool.false_eq_true] at h
      obtain ⟨ihA, ihB⟩ := ih (am ++ [(req.GetAuthFlavor, req)]) res h
      have hext : (am ++ [(req.GetAuthFlavor, req)]).lookup req.GetAuthFlavor =
          some req := by
        simp [List.lookup_append, hnone]
      refine ⟨?_, ?_⟩
      · intro a ha
        cases hx : am.lookup a with
        | none => rw [hx] at ha; simp at ha
        | some v =>
          have hsome : ((am ++ [(req.GetAuthFlavor, req)]).lookup a).isSome = true := by
            simp [List.lookup_append, hx]
          rw [ihA a hsome]
          simp [List.lookup_append, hx]
      · intro r hr
        rcases List.mem_cons.mp hr with heq | htail
        · subst heq
          have h3 := ihA r.GetAuthFlavor (by simp [hext])
          rw [h3, hext]
        · exact ihB r htail

/-- Claim C4: `generateAuthMap` over a factory list panics (modelled as an
error) exactly when two factories report the same flavor; when the flavors
are all distinct it returns a map binding every listed factory's flavor to
exactly that factory. -/
theorem claim4_registry_duplicate_flavors (reqs : List DaosAuth.CredentialRequestFactory) :
    ((∃ e, DaosAuth.generateAuthMap reqs = Except.error e) ↔
      ¬ (reqs.map (fun r => r.GetAuthFlavor)).Nodup) ∧
    (∀ am, DaosAuth.generateAuthMap reqs = Except.ok am →
      ∀ req ∈ reqs, am.lookup req.GetAuthFlavor = some req) := by
  constructor
  · have hok := generateAuthMapFrom_isOk reqs []
    simp only [DaosAuth.generateAuthMap]
    constructor
    · rintro ⟨e, he⟩ hnd
      have : (DaosAuth.generateAuthMapFrom reqs []).isOk = true :=
        hok.mpr ⟨hnd, fun req _ => by simp⟩
      rw [he] at this
      simp [Except.isOk, Except.toBool] at this
    · intro hnd
      cases hx : DaosAuth.generateAuthMapFrom reqs [] with
      | ok am =>
        have : (reqs.map (fun r => r.GetAuthFlavor)).Nodup :=
          (hok.mp (by simp [hx, Except.isOk, Except.toBool])).1
        exact absurd this hnd
      | error e => exact ⟨e, rfl⟩
  · intro am ham
    exact (generateAuthMapFrom_lookup reqs [] am ham).2

/-- Claim C4 witness: two factories sharing the `AUTH_SYS` flavor make
`generateAuthMap` abort, and the registry built from the real factory list
resolves each listed factory's flavor to that factory. -/
theorem claim4_registry_duplicate_flavors_witness :
    (∃ e, DaosAuth.generateAuthMap
        [DaosAuth.CredentialRequestUnix,
         { name := "unix2", GetAuthFlavor := DaosAuth.Flavor_AUTH_SYS }] =
      Except.error e) ∧
    DaosAuth.FlavorToFactory.lookup DaosAuth.Flavor_AUTH_SYS =
      some DaosAuth.CredentialRequestUnix ∧
    DaosAuth.FlavorToFactory.lookup DaosAuth.Flavor_AUTH_AM =
      some DaosAuth.CredentialRequestAM := by
  have h1 := (claim4_registry_duplicate_flavors
    [DaosAuth.CredentialRequestUnix,
     { name := "unix2", GetAuthFlavor := DaosAuth.Flavor_AUTH_SYS }]).1.mpr (by decide)
  have h2 := (claim4_registry_duplicate_flavors DaosAuth.CredentialRequests).2
    DaosAuth.FlavorToFactory rfl
  exact ⟨h1, h2 DaosAuth.CredentialRequestUnix (by decide),
    h2 DaosAuth.CredentialRequestAM (by decide)⟩

/-- Claim C6: when the requested flavor is allowed but retrieving the
signing key fails, `getCredential` does not return a transport-level error:
it returns a successfully marshaled credential response carrying the
`daos.BadCert` status, a status distinct from the generic one. -/
theorem claim6_badcert_status (env : SecEnv) (validAuthFlavors : List DaosAuth.Flavor)
    (args : AuthArgs) (e : Err)
    (hmem : args.Flavor ∈ validAuthFlavors)
    (hkey : env.privateKey = Except.error e) :
    getCredential env validAuthFlavors args =
      Except.ok (marshalGetCredResp { Status := daosBadCert, Cred := none }) ∧
    daosBadCert ≠ daosMiscError := by
  have hne : validAuthFlavors ≠ [] := List.ne_nil_of_mem hmem
  have hlen : ¬ validAuthFlavors.length = 0 := by
    simpa [List.length_eq_zero] using hne
  refine ⟨?_, by decide⟩
  simp [getCredential, hlen, hmem, hkey, credRespWithStatus]

/-- Claim C6 witness: a concrete environment whose private key retrieval
fails yields the marshaled BadCert response, via the main theorem. -/
theorem claim6_badcert_status_witness :
    getCredential
        { attachInfoValidAuthFlavors := Except.ok [1],
          privateKey := Except.error (Err.msg "bad key"),
          initResult := Except.ok (), signResult := Except.ok { data := [] } }
        [1] { Flavor := 1, Data := [] } =
      Except.ok (marshalGetCredResp { Status := daosBadCert, Cred := none }) := by
  exact (claim6_badcert_status _ [1] { Flavor := 1, Data := [] } (Err.msg "bad key")
    (by decide) rfl).1

/-- Claim C7, counterexample: with the valid-flavor set populated as
`[AUTH_SYS]`, a request for the disallowed `AUTH_AM` flavor makes
`getCredential` return a transport-level error — not a status-bearing
credential response as the claim states. -/
theorem claim7_status_counterexample :
    getCredential
        { attachInfoValidAuthFlavors := Except.ok [1], privateKey := Except.ok 0,
          initResult := Except.ok (), signResult := Except.ok { data := [5] } }
        [DaosAuth.Flavor_AUTH_SYS]
        { Flavor := DaosAuth.Flavor_AUTH_AM, Data := [] } =
      Except.error (Err.msg "invalid authentication method: the method requested is not allowed by the server configuration.") := by
  rfl

/-- Claim C7 as amended: a requested flavor outside the populated
valid-flavor set is rejected by returning an error from `getCredential`
(a transport-level failure of the call, with the invalid-authentication-
method message), not by a marshaled status response. -/
theorem claim7_disallowed_flavor_amended (env : SecEnv)
    (validAuthFlavors : List DaosAuth.Flavor) (args : AuthArgs)
    (flavors : List DaosAuth.Flavor)
    (hpop : (if validAuthFlavors.length = 0 then retrieveAuthFromServer env
             else Except.ok validAuthFlavors) = Except.ok flavors)
    (hmem : args.Flavor ∉ flavors) :
    getCredential env validAuthFlavors args =
      Except.error (Err.msg "invalid authentication method: the method requested is not allowed by the server configuration.") := by
  simp only [getCredential, hpop]
  simp [hmem]

/-- Claim C7 witness: concrete instantiation of the amended theorem with a
populated set `[AUTH_SYS]` and a disallowed requested flavor. -/
theorem claim7_disallowed_flavor_amended_witness :
    getCredential
        { attachInfoValidAuthFlavors := Except.ok [2], privateKey := Except.ok 7,
          initResult := Except.ok (), signResult := Except.ok { data := [] } }
        [DaosAuth.Flavor_AUTH_SYS]
        { Flavor := DaosAuth.Flavor_AUTH_AM, Data := [9] } =
      Except.error (Err.msg "invalid authentication method: the method requested is not allowed by the server configuration.") := by
  exact claim7_disallowed_flavor_amended _ [DaosAuth.Flavor_AUTH_SYS]
    { Flavor := DaosAuth.Flavor_AUTH_AM, Data := [9] } [DaosAuth.Flavor_AUTH_SYS]
    rfl (by decide)

end ClaimTheorems
